import Mathlib

/-!
Shallow embedding of `src/scheduler.py` (multi-queue round-robin service
scheduler) and proofs of the specification's claims about it.

Python dictionaries are modelled as association lists (`List (String × α)`)
with insertion-order semantics: assignment updates an existing key in place
or appends a fresh key at the end, exactly as a Python `dict` does.
Python `int` is modelled as `Int`; list lengths are `Nat` and are cast to
`Int` where the source compares them with an `int` field.  Mutation is
modelled by explicit state passing: each operation takes a `Scheduler` and
returns the new `Scheduler` together with the list of log lines it returns
(and, for `enqueue`, the advisory messages it prints to stdout).
-/

set_option autoImplicit false

namespace RRScheduler

/-- Association-list lookup with Python `dict` semantics (`m[k]` / `k in m`). -/
def lookupA {α : Type} : List (String × α) → String → Option α
  | [], _ => none
  | (k, v) :: rest, key => if k = key then some v else lookupA rest key

/-- Association-list assignment with Python `dict` semantics: `m[k] = v`
updates the existing entry in place, or appends a new entry at the end. -/
def setA {α : Type} : List (String × α) → String → α → List (String × α)
  | [], key, v => [(key, v)]
  | (k, w) :: rest, key, v =>
      if k = key then (key, v) :: rest else (k, w) :: setA rest key v

/-- Left-pad a string with `'0'` up to width `w` (Python `str.zfill`). -/
def zfill (w : Nat) (s : String) : String :=
  if s.length ≥ w then s else String.mk (List.replicate (w - s.length) '0') ++ s

/-- Python `f"{n:03d}"`: zero-pad to (total) width 3, sign first. -/
def fmt03d (n : Int) : String :=
  if n < 0 then "-" ++ zfill 2 (toString (-n)) else zfill 3 (toString n)

/-- `REQUIRED_MENU`: the hardcoded menu, in source order. -/
def REQUIRED_MENU : List (String × Int) :=
  [("americano", 2), ("latte", 3), ("cappuccino", 3), ("mocha", 4),
   ("tea", 1), ("macchiato", 2), ("hot_chocolate", 4)]

/-- `Task`: a unit of work (`task_id`, `remaining`). -/
structure Task where
  task_id : String
  remaining : Int
  deriving DecidableEq, Repr

/-- `QueueRR`: a simple FIFO queue with capacity limit. -/
structure QueueRR where
  queue_id : String
  capacity : Int
  data : List Task
  deriving DecidableEq, Repr

/-- `QueueRR.enqueue`: fails (returns `false`) when `len(data) >= capacity`,
otherwise appends at the tail. -/
def QueueRR.enqueue (q : QueueRR) (task : Task) : QueueRR × Bool :=
  if (q.data.length : Int) ≥ q.capacity then (q, false)
  else ({ q with data := q.data ++ [task] }, true)

/-- `QueueRR.dequeue`: removes and returns the head task, or `none`. -/
def QueueRR.dequeue (q : QueueRR) : QueueRR × Option Task :=
  match q.data with
  | [] => (q, none)
  | t :: rest => ({ q with data := rest }, some t)

/-- `QueueRR.peek`: head task without removal. -/
def QueueRR.peek (q : QueueRR) : Option Task :=
  q.data.head?

/-- The `Scheduler` state: global time, queue registry (a dict), creation
order, per-queue id counters, per-queue skip flags, round-robin cursor,
and the menu copied at construction. -/
structure Scheduler where
  time : Int
  queues : List (String × QueueRR)
  queue_order : List String
  id_counter : List (String × Int)
  skip_flags : List (String × Bool)
  rr_index : Nat
  menu : List (String × Int)
  deriving DecidableEq, Repr

/-- `Scheduler.__init__`. -/
def Scheduler.init : Scheduler :=
  { time := 0, queues := [], queue_order := [], id_counter := [],
    skip_flags := [], rr_index := 0, menu := REQUIRED_MENU }

/-- `Scheduler.next_queue`: `queue_order[rr_index % len(queue_order)]`, or
`none` when no queue exists. -/
def Scheduler.next_queue (s : Scheduler) : Option String :=
  if s.queue_order.length = 0 then none
  else some (s.queue_order.getD (s.rr_index % s.queue_order.length) "")

/- Log-line builders, matching the source's f-strings token for token. -/

def createLine (t : Int) (qid : String) : String :=
  "time=" ++ toString t ++ " event=create queue=" ++ qid

def enqueueLine (t : Int) (qid tid : String) (rem : Int) : String :=
  "time=" ++ toString t ++ " event=enqueue queue=" ++ qid ++
    " task=" ++ tid ++ " remaining=" ++ toString rem

def rejectLine (t : Int) (qid tid reason : String) : String :=
  "time=" ++ toString t ++ " event=reject queue=" ++ qid ++
    " task=" ++ tid ++ " reason=" ++ reason

def skipLine (t : Int) (qid : String) : String :=
  "time=" ++ toString t ++ " event=skip queue=" ++ qid

def runLine (t : Int) (qid : String) : String :=
  "time=" ++ toString t ++ " event=run queue=" ++ qid

def workLine (t : Int) (qid tid : String) (rem : Int) : String :=
  "time=" ++ toString t ++ " event=work queue=" ++ qid ++
    " task=" ++ tid ++ " remaining=" ++ toString rem

def finishLine (t : Int) (qid tid : String) : String :=
  "time=" ++ toString t ++ " event=finish queue=" ++ qid ++ " task=" ++ tid

def errorLine (t : Int) : String :=
  "time=" ++ toString t ++ " event=error reason=invalid_steps"

/-- The task id `f"{queue_id}-{counter:03d}"` that the NEXT `enqueue` on
`qid` will use (current counter value plus one). -/
def taskIdFor (s : Scheduler) (qid : String) : String :=
  qid ++ "-" ++ fmt03d ((lookupA s.id_counter qid).getD 0 + 1)

/-- `Scheduler.create_queue`: idempotent registration; emits a `create`
event only when the id is new. -/
def Scheduler.create_queue (s : Scheduler) (queue_id : String) (capacity : Int) :
    Scheduler × List String :=
  if (lookupA s.queues queue_id).isNone then
    ({ s with
        queues := setA s.queues queue_id ⟨queue_id, capacity, []⟩,
        queue_order := s.queue_order ++ [queue_id],
        id_counter := setA s.id_counter queue_id 0,
        skip_flags := setA s.skip_flags queue_id false },
     [createLine s.time queue_id])
  else (s, [])

/-- `Scheduler.enqueue`: returns (new state, log lines, printed advisory
messages).  An unknown queue id is silently ignored; otherwise the id
counter is bumped first, then the item is validated against the menu and
the queue's capacity. -/
def Scheduler.enqueue (s : Scheduler) (queue_id item_name : String) :
    Scheduler × List String × List String :=
  match lookupA s.queues queue_id with
  | none => (s, [], [])
  | some q =>
    let c := (lookupA s.id_counter queue_id).getD 0 + 1
    let s1 := { s with id_counter := setA s.id_counter queue_id c }
    let task_id := queue_id ++ "-" ++ fmt03d c
    match lookupA s.menu item_name with
    | none =>
        (s1, [rejectLine s.time queue_id task_id "unknown_item"],
         ["Sorry, we don\x27t serve that."])
    | some burst =>
        let task : Task := ⟨task_id, burst⟩
        let r := q.enqueue task
        if r.2 then
          ({ s1 with queues := setA s1.queues queue_id r.1 },
           [enqueueLine s.time queue_id task_id burst], [])
        else
          (s1, [rejectLine s.time queue_id task_id "full"],
           ["Sorry, we\x27re at capacity."])

/-- `Scheduler.mark_skip`: sets the flag and logs when the id is known. -/
def Scheduler.mark_skip (s : Scheduler) (queue_id : String) :
    Scheduler × List String :=
  if (lookupA s.skip_flags queue_id).isSome then
    ({ s with skip_flags := setA s.skip_flags queue_id true },
     [skipLine s.time queue_id])
  else (s, [])

/-- Insert a (name, cost) pair into a list sorted by name. -/
def insertPair (p : String × Int) : List (String × Int) → List (String × Int)
  | [] => [p]
  | q :: rest => if p.1 ≤ q.1 then p :: q :: rest else q :: insertPair p rest

/-- `sorted(menu.items())`: insertion sort by item name (names are distinct
in the menu, so sorting by the first component matches Python's tuple
order). -/
def sortPairs : List (String × Int) → List (String × Int)
  | [] => []
  | p :: rest => insertPair p (sortPairs rest)

/-- `Scheduler.display`: pure snapshot rendering.  Python's
`self.next_queue() or "none"` yields `"none"` for both `None` and the
falsy empty string. -/
def Scheduler.display (s : Scheduler) : List String :=
  let next_qid :=
    match s.next_queue with
    | none => "none"
    | some x => if x = "" then "none" else x
  let l1 := "display time=" ++ toString s.time ++ " next=" ++ next_qid
  let menu_items := String.intercalate ","
    ((sortPairs s.menu).map (fun p => p.1 ++ ":" ++ toString p.2))
  let l2 := "display menu=[" ++ menu_items ++ "]"
  let qlines := s.queue_order.map (fun qid =>
    let q := (lookupA s.queues qid).getD ⟨qid, 0, []⟩
    let skip_tag := if (lookupA s.skip_flags qid).getD false then " [ skip]" else ""
    let tasks_str := String.intercalate ","
      (q.data.map (fun t => t.task_id ++ ":" ++ toString t.remaining))
    "display " ++ qid ++ " [" ++ toString q.data.length ++ "/" ++
      toString q.capacity ++ "]" ++ skip_tag ++ " -> [" ++ tasks_str ++ "]")
  l1 :: l2 :: qlines

/-- One iteration of the `while` loop in `Scheduler.run`: service (or skip)
the queue at the cursor, advance the cursor, append a display snapshot.
Returns the new state and the log lines of this turn. -/
def Scheduler.runTurn (s : Scheduler) (quantum : Int) : Scheduler × List String :=
  let n := s.queue_order.length
  let qid := s.queue_order.getD s.rr_index ""
  let log0 := runLine s.time qid
  if (lookupA s.skip_flags qid).getD false then
    let s2 := { s with
        skip_flags := setA s.skip_flags qid false,
        rr_index := (s.rr_index + 1) % n }
    (s2, log0 :: s2.display)
  else
    let q := (lookupA s.queues qid).getD ⟨qid, 0, []⟩
    match q.data with
    | [] =>
        let s2 := { s with rr_index := (s.rr_index + 1) % n }
        (s2, log0 :: s2.display)
    | task :: rest =>
        let work_time := min task.remaining quantum
        let task2 : Task := ⟨task.task_id, task.remaining - work_time⟩
        let q1 : QueueRR := { q with data := rest }
        if task2.remaining > 0 then
          let q2 := (q1.enqueue task2).1
          let s2 := { s with
              time := s.time + work_time,
              queues := setA s.queues qid q2,
              rr_index := (s.rr_index + 1) % n }
          (s2, log0 :: workLine (s.time + work_time) qid task.task_id task2.remaining
                 :: s2.display)
        else
          let s2 := { s with
              time := s.time + work_time,
              queues := setA s.queues qid q1,
              rr_index := (s.rr_index + 1) % n }
          (s2, log0 :: finishLine (s.time + work_time) qid task.task_id
                 :: s2.display)

/-- `all(len(qx) == 0 for qx in self.queues.values())`. -/
def allEmpty (s : Scheduler) : Bool :=
  s.queues.all (fun p => p.2.data.isEmpty)

/-- `not any(self.skip_flags.values())`. -/
def noSkips (s : Scheduler) : Bool :=
  s.skip_flags.all (fun p => !p.2)

/-- Early-stop condition of unbounded `run`. -/
def stopCond (s : Scheduler) : Bool :=
  allEmpty s && noSkips s

/-- The `while turns_done < turns` loop of `Scheduler.run`, with the fuel
`turns` made explicit.  Returns (final state, log lines, turns executed).
When `auto` is set (Python `steps is None`) the loop re-checks the
early-stop condition after every turn.  The loop's inner
`if n_queues == 0: break` guard is dead code (`n_queues` is a local
computed once and the loop is entered only when it is positive), so it has
no counterpart here. -/
def Scheduler.runLoop (s : Scheduler) (quantum : Int) (auto : Bool) :
    Nat → Scheduler × List String × Nat
  | 0 => (s, [], 0)
  | Nat.succ fuel =>
    let s1 := (s.runTurn quantum).1
    let ls := (s.runTurn quantum).2
    if auto && (allEmpty s1 && noSkips s1) then
      (s1, ls, 1)
    else
      let r := s1.runLoop quantum auto fuel
      (r.1, ls ++ r.2.1, r.2.2 + 1)

/-- `Scheduler.run`: validates `steps`, picks the turn budget
(`steps` or `n × 100`), and runs the dispatch loop. -/
def Scheduler.run (s : Scheduler) (quantum : Int) (steps : Option Int) :
    Scheduler × List String :=
  let n := s.queue_order.length
  if n = 0 then (s, [])
  else
    match steps with
    | some st =>
        if st < 1 || st > (n : Int) then (s, [errorLine s.time])
        else
          let r := s.runLoop quantum false st.toNat
          (r.1, r.2.1)
    | none =>
        let r := s.runLoop quantum true (n * 100)
        (r.1, r.2.1)

/-- `k` repetitions of `runTurn` from a given state. -/
def iterTurns (s : Scheduler) (quantum : Int) : Nat → Scheduler
  | 0 => s
  | k + 1 => ((iterTurns s quantum k).runTurn quantum).1

/-- `n` consecutive `mark_skip` calls on the same queue, collecting all
log lines in order. -/
def markSkipN (s : Scheduler) (qid : String) : Nat → Scheduler × List String
  | 0 => (s, [])
  | Nat.succ k =>
    let s1 := (s.mark_skip qid).1
    let r := markSkipN s1 qid k
    (r.1, (s.mark_skip qid).2 ++ r.2)

/-- Capacity invariant of a single queue: the contents never outgrow the
capacity, except that a queue created with a negative capacity is (and
stays) empty although `0 ≤ capacity` fails for it. -/
def QInv (q : QueueRR) : Prop :=
  (q.data.length : Int) ≤ q.capacity ∨ q.data = []

/-- Capacity invariant over every queue held in a registry map. -/
def MapInv (m : List (String × QueueRR)) : Prop :=
  ∀ qid q, lookupA m qid = some q → QInv q

/-- Capacity invariant over every registered queue of a scheduler. -/
def SchedInv (s : Scheduler) : Prop :=
  MapInv s.queues

/-- States reachable from a fresh `Scheduler` through the public API. -/
inductive Reachable : Scheduler → Prop where
  | init : Reachable Scheduler.init
  | create_step (s : Scheduler) (qid : String) (cap : Int) :
      Reachable s → Reachable (s.create_queue qid cap).1
  | enqueue_step (s : Scheduler) (qid item : String) :
      Reachable s → Reachable (s.enqueue qid item).1
  | mark_skip_step (s : Scheduler) (qid : String) :
      Reachable s → Reachable (s.mark_skip qid).1
  | run_step (s : Scheduler) (quantum : Int) (steps : Option Int) :
      Reachable s → Reachable (s.run quantum steps).1

/- ### Concrete example states used by the witnesses below -/

/-- One registered queue `c1` of capacity 1, still empty. -/
def exC1 : Scheduler := (Scheduler.init.create_queue "c1" 1).1

/-- One registered queue `c1` of capacity 2 holding the task `c1-001`
(a latte, 3 units of work). -/
def exC2 : Scheduler :=
  (((Scheduler.init.create_queue "c1" 2).1).enqueue "c1" "latte").1

/-- One registered queue `c1` of capacity 1, still empty. -/
def exC3 : Scheduler := (Scheduler.init.create_queue "c1" 1).1

/-- One registered queue `c1` of capacity 1 filled to capacity. -/
def exC4 : Scheduler :=
  (((Scheduler.init.create_queue "c1" 1).1).enqueue "c1" "tea").1

/-- Queue `c1` (capacity 2) with a pending task and its skip flag set. -/
def exC5 : Scheduler :=
  (((((Scheduler.init.create_queue "c1" 2).1).enqueue "c1" "tea").1).mark_skip "c1").1

/-- One registered queue `c1` of capacity 1, still empty. -/
def exC6 : Scheduler := (Scheduler.init.create_queue "c1" 1).1

/-- One registered queue `c1` of capacity 1, still empty. -/
def exC7 : Scheduler := (Scheduler.init.create_queue "c1" 1).1

/-- Queue `c1` of capacity 1 holding `c1-001` (a latte, 3 units): the
head is also the last slot, so a preempting turn must re-insert it. -/
def exC8 : Scheduler :=
  (((Scheduler.init.create_queue "c1" 1).1).enqueue "c1" "latte").1

/-- One registered queue `c1` created with capacity 0. -/
def exC9 : Scheduler := (Scheduler.init.create_queue "c1" 0).1

/-- One registered queue `c1` of capacity 3, still empty. -/
def exC10 : Scheduler := (Scheduler.init.create_queue "c1" 3).1

/- ### Association-list laws -/

theorem lookupA_setA_self {α : Type} (m : List (String × α)) (k : String) (v : α) :
    lookupA (setA m k v) k = some v := by
  induction m with
  | nil => simp [setA, lookupA]
  | cons p rest ih =>
      by_cases h : p.1 = k
      · simp [setA, h, lookupA]
      · simp only [setA]
        rw [if_neg (by simpa using h)]
        simp [lookupA, h, ih]

theorem lookupA_setA_ne {α : Type} (m : List (String × α)) (k k2 : String) (v : α)
    (h : k2 ≠ k) : lookupA (setA m k v) k2 = lookupA m k2 := by
  induction m with
  | nil => simp [setA, lookupA, Ne.symm h]
  | cons p rest ih =>
      by_cases hp : p.1 = k
      · simp only [setA]
        rw [if_pos (by simpa using hp)]
        simp [lookupA, Ne.symm h, hp]
      · simp only [setA]
        rw [if_neg (by simpa using hp)]
        by_cases hpk : p.1 = k2
        · simp [lookupA, hpk]
        · simp [lookupA, hpk, ih]

/- ### Characterization of `Scheduler.enqueue`, one lemma per branch -/

theorem enqueue_unknown_queue (s : Scheduler) (qid item : String)
    (h : lookupA s.queues qid = none) :
    s.enqueue qid item = (s, [], []) := by
  simp [Scheduler.enqueue, h]

theorem enqueue_unknown_item (s : Scheduler) (qid item : String) (q : QueueRR)
    (hq : lookupA s.queues qid = some q) (hm : lookupA s.menu item = none) :
    s.enqueue qid item =
      ({ s with
          id_counter := setA s.id_counter qid ((lookupA s.id_counter qid).getD 0 + 1) },
       [rejectLine s.time qid (taskIdFor s qid) "unknown_item"],
       ["Sorry, we don\x27t serve that."]) := by
  simp [Scheduler.enqueue, hq, hm, taskIdFor]

theorem enqueue_full (s : Scheduler) (qid item : String) (q : QueueRR) (burst : Int)
    (hq : lookupA s.queues qid = some q) (hm : lookupA s.menu item = some burst)
    (hcap : (q.data.length : Int) ≥ q.capacity) :
    s.enqueue qid item =
      ({ s with
          id_counter := setA s.id_counter qid ((lookupA s.id_counter qid).getD 0 + 1) },
       [rejectLine s.time qid (taskIdFor s qid) "full"],
       ["Sorry, we\x27re at capacity."]) := by
  simp [Scheduler.enqueue, hq, hm, QueueRR.enqueue, hcap, taskIdFor]

theorem enqueue_success (s : Scheduler) (qid item : String) (q : QueueRR) (burst : Int)
    (hq : lookupA s.queues qid = some q) (hm : lookupA s.menu item = some burst)
    (hcap : ¬ (q.data.length : Int) ≥ q.capacity) :
    s.enqueue qid item =
      ({ s with
          id_counter := setA s.id_counter qid ((lookupA s.id_counter qid).getD 0 + 1),
          queues := setA s.queues qid
            { q with data := q.data ++ [⟨taskIdFor s qid, burst⟩] } },
       [enqueueLine s.time qid (taskIdFor s qid) burst], []) := by
  simp [Scheduler.enqueue, hq, hm, QueueRR.enqueue, hcap, taskIdFor]

/- ### Characterization of `Scheduler.runTurn`, one lemma per branch -/

theorem runTurn_skip (s : Scheduler) (quantum : Int)
    (h1 : (lookupA s.skip_flags (s.queue_order.getD s.rr_index "")).getD false = true) :
    s.runTurn quantum =
      (let s2 : Scheduler := { s with
          skip_flags := setA s.skip_flags (s.queue_order.getD s.rr_index "") false,
          rr_index := (s.rr_index + 1) % s.queue_order.length };
       (s2, runLine s.time (s.queue_order.getD s.rr_index "") :: s2.display)) := by
  simp only [Scheduler.runTurn]
  rw [h1]
  simp

theorem runTurn_idle (s : Scheduler) (quantum : Int) (q : QueueRR)
    (h1 : (lookupA s.skip_flags (s.queue_order.getD s.rr_index "")).getD false = false)
    (hq : lookupA s.queues (s.queue_order.getD s.rr_index "") = some q)
    (hd : q.data = []) :
    s.runTurn quantum =
      (let s2 : Scheduler := { s with rr_index := (s.rr_index + 1) % s.queue_order.length };
       (s2, runLine s.time (s.queue_order.getD s.rr_index "") :: s2.display)) := by
  simp only [Scheduler.runTurn]
  rw [h1, hq]
  simp [hd]

theorem runTurn_work (s : Scheduler) (quantum : Int) (q : QueueRR)
    (task : Task) (rest : List Task)
    (h1 : (lookupA s.skip_flags (s.queue_order.getD s.rr_index "")).getD false = false)
    (hq : lookupA s.queues (s.queue_order.getD s.rr_index "") = some q)
    (hd : q.data = task :: rest)
    (hrem : 0 < task.remaining - min task.remaining quantum) :
    s.runTurn quantum =
      ({ s with
          time := s.time + min task.remaining quantum,
          queues := setA s.queues (s.queue_order.getD s.rr_index "")
            ((QueueRR.enqueue { q with data := rest }
                ⟨task.task_id, task.remaining - min task.remaining quantum⟩).1),
          rr_index := (s.rr_index + 1) % s.queue_order.length },
       runLine s.time (s.queue_order.getD s.rr_index "")
         :: workLine (s.time + min task.remaining quantum)
              (s.queue_order.getD s.rr_index "") task.task_id
              (task.remaining - min task.remaining quantum)
         :: Scheduler.display { s with
              time := s.time + min task.remaining quantum,
              queues := setA s.queues (s.queue_order.getD s.rr_index "")
                ((QueueRR.enqueue { q with data := rest }
                    ⟨task.task_id, task.remaining - min task.remaining quantum⟩).1),
              rr_index := (s.rr_index + 1) % s.queue_order.length }) := by
  simp only [Scheduler.runTurn]
  rw [h1, hq]
  simp [hd, hrem]

theorem runTurn_finish (s : Scheduler) (quantum : Int) (q : QueueRR)
    (task : Task) (rest : List Task)
    (h1 : (lookupA s.skip_flags (s.queue_order.getD s.rr_index "")).getD false = false)
    (hq : lookupA s.queues (s.queue_order.getD s.rr_index "") = some q)
    (hd : q.data = task :: rest)
    (hrem : ¬ 0 < task.remaining - min task.remaining quantum) :
    s.runTurn quantum =
      ({ s with
          time := s.time + min task.remaining quantum,
          queues := setA s.queues (s.queue_order.getD s.rr_index "")
            { q with data := rest },
          rr_index := (s.rr_index + 1) % s.queue_order.length },
       runLine s.time (s.queue_order.getD s.rr_index "")
         :: finishLine (s.time + min task.remaining quantum)
              (s.queue_order.getD s.rr_index "") task.task_id
         :: Scheduler.display { s with
              time := s.time + min task.remaining quantum,
              queues := setA s.queues (s.queue_order.getD s.rr_index "")
                { q with data := rest },
              rr_index := (s.rr_index + 1) % s.queue_order.length }) := by
  simp only [Scheduler.runTurn]
  rw [h1, hq]
  simp [hd, hrem]

theorem runTurn_missing (s : Scheduler) (quantum : Int)
    (h1 : (lookupA s.skip_flags (s.queue_order.getD s.rr_index "")).getD false = false)
    (hq : lookupA s.queues (s.queue_order.getD s.rr_index "") = none) :
    s.runTurn quantum =
      (let s2 : Scheduler := { s with rr_index := (s.rr_index + 1) % s.queue_order.length };
       (s2, runLine s.time (s.queue_order.getD s.rr_index "") :: s2.display)) := by
  simp only [Scheduler.runTurn]
  rw [h1, hq]
  simp

theorem create_queue_new (s : Scheduler) (qid : String) (cap : Int)
    (h : lookupA s.queues qid = none) :
    s.create_queue qid cap =
      ({ s with
          queues := setA s.queues qid ⟨qid, cap, []⟩,
          queue_order := s.queue_order ++ [qid],
          id_counter := setA s.id_counter qid 0,
          skip_flags := setA s.skip_flags qid false },
       [createLine s.time qid]) := by
  simp [Scheduler.create_queue, h]

theorem mark_skip_known (s : Scheduler) (qid : String)
    (h : (lookupA s.skip_flags qid).isSome = true) :
    s.mark_skip qid =
      ({ s with skip_flags := setA s.skip_flags qid true }, [skipLine s.time qid]) := by
  simp [Scheduler.mark_skip, h]

theorem markSkipN_replicate (qid : String) :
    ∀ (n : Nat) (s : Scheduler), (lookupA s.skip_flags qid).isSome = true →
      (markSkipN s qid n).2 = List.replicate n (skipLine s.time qid) := by
  intro n
  induction n with
  | zero => intro s _; rfl
  | succ n ih =>
      intro s h
      have h2 : (lookupA ({ s with skip_flags := setA s.skip_flags qid true }).skip_flags
          qid).isSome = true := by
        show (lookupA (setA s.skip_flags qid true) qid).isSome = true
        rw [lookupA_setA_self]
        rfl
      simp only [markSkipN]
      rw [mark_skip_known s qid h]
      rw [ih _ h2]
      rfl

/- ### Preservation of the capacity invariant -/

theorem QInv_enqueue (q : QueueRR) (t : Task) (h : QInv q) : QInv (q.enqueue t).1 := by
  unfold QueueRR.enqueue
  split
  · exact h
  · rename_i hcap
    left
    show ((q.data ++ [t]).length : Int) ≤ q.capacity
    simp only [List.length_append, List.length_singleton]
    push_cast
    omega

theorem MapInv_setA (m : List (String × QueueRR)) (k : String) (v : QueueRR)
    (h : MapInv m) (hv : QInv v) : MapInv (setA m k v) := by
  intro qid q hq
  by_cases hk : qid = k
  · subst hk
    rw [lookupA_setA_self] at hq
    cases hq
    exact hv
  · rw [lookupA_setA_ne _ _ _ _ hk] at hq
    exact h _ _ hq

theorem SchedInv_create (s : Scheduler) (qid : String) (cap : Int) (h : SchedInv s) :
    SchedInv (s.create_queue qid cap).1 := by
  unfold Scheduler.create_queue
  split
  · exact MapInv_setA _ _ _ h (Or.inr rfl)
  · exact h

theorem SchedInv_enqueue (s : Scheduler) (qid item : String) (h : SchedInv s) :
    SchedInv (s.enqueue qid item).1 := by
  cases hq : lookupA s.queues qid with
  | none => rw [enqueue_unknown_queue s qid item hq]; exact h
  | some q =>
    cases hm : lookupA s.menu item with
    | none => rw [enqueue_unknown_item s qid item q hq hm]; exact h
    | some burst =>
      by_cases hcap : (q.data.length : Int) ≥ q.capacity
      · rw [enqueue_full s qid item q burst hq hm hcap]; exact h
      · rw [enqueue_success s qid item q burst hq hm hcap]
        refine MapInv_setA _ _ _ h ?_
        left
        show ((q.data ++ [(⟨taskIdFor s qid, burst⟩ : Task)]).length : Int) ≤ q.capacity
        simp only [List.length_append, List.length_singleton]
        push_cast
        push_cast at hcap
        omega

theorem SchedInv_mark_skip (s : Scheduler) (qid : String) (h : SchedInv s) :
    SchedInv (s.mark_skip qid).1 := by
  unfold Scheduler.mark_skip
  split
  · exact h
  · exact h

theorem QInv_tail (q : QueueRR) (task : Task) (rest : List Task)
    (hd : q.data = task :: rest) (h : QInv q) :
    QInv { q with data := rest } := by
  rcases h with hle | hnil
  · rw [hd] at hle
    by_cases hr : rest = []
    · exact Or.inr hr
    · left
      show ((rest.length : Int) ≤ q.capacity)
      rw [List.length_cons] at hle
      push_cast at hle ⊢
      omega
  · rw [hnil] at hd
    cases hd

theorem SchedInv_runTurn (s : Scheduler) (quantum : Int) (h : SchedInv s) :
    SchedInv (s.runTurn quantum).1 := by
  by_cases h1 : (lookupA s.skip_flags (s.queue_order.getD s.rr_index "")).getD false = true
  · rw [runTurn_skip s quantum h1]; exact h
  · have h1f : (lookupA s.skip_flags (s.queue_order.getD s.rr_index "")).getD false = false :=
      Bool.eq_false_iff.mpr h1
    cases hq : lookupA s.queues (s.queue_order.getD s.rr_index "") with
    | none => rw [runTurn_missing s quantum h1f hq]; exact h
    | some q =>
      have hQ := h _ _ hq
      cases hd : q.data with
      | nil => rw [runTurn_idle s quantum q h1f hq hd]; exact h
      | cons task rest =>
        have hq1 : QInv { q with data := rest } := QInv_tail q task rest hd hQ
        by_cases hrem : 0 < task.remaining - min task.remaining quantum
        · rw [runTurn_work s quantum q task rest h1f hq hd hrem]
          exact MapInv_setA _ _ _ h (QInv_enqueue _ _ hq1)
        · rw [runTurn_finish s quantum q task rest h1f hq hd hrem]
          exact MapInv_setA _ _ _ h hq1

theorem SchedInv_runLoop (quantum : Int) (auto : Bool) :
    ∀ (fuel : Nat) (s : Scheduler), SchedInv s → SchedInv (s.runLoop quantum auto fuel).1 := by
  intro fuel
  induction fuel with
  | zero => intro s h; exact h
  | succ fuel ih =>
    intro s h
    simp only [Scheduler.runLoop]
    split
    · exact SchedInv_runTurn s quantum h
    · exact ih _ (SchedInv_runTurn s quantum h)

theorem SchedInv_run (s : Scheduler) (quantum : Int) (steps : Option Int) (h : SchedInv s) :
    SchedInv (s.run quantum steps).1 := by
  simp only [Scheduler.run]
  split
  · exact h
  · cases steps with
    | none => exact SchedInv_runLoop quantum true _ s h
    | some st =>
      simp only []
      split
      · exact h
      · exact SchedInv_runLoop quantum false _ s h

theorem reachable_SchedInv (s : Scheduler) (h : Reachable s) : SchedInv s := by
  induction h with
  | init =>
      intro qid q hq
      simp [lookupA] at hq
  | create_step s qid cap _ ih => exact SchedInv_create s qid cap ih
  | enqueue_step s qid item _ ih => exact SchedInv_enqueue s qid item ih
  | mark_skip_step s qid _ ih => exact SchedInv_mark_skip s qid ih
  | run_step s quantum steps _ ih => exact SchedInv_run s quantum steps ih

/- ### Shape of the unbounded dispatch loop -/

theorem iterTurns_shift (s : Scheduler) (quantum : Int) (k : Nat) :
    iterTurns s quantum (k + 1) = iterTurns ((s.runTurn quantum).1) quantum k := by
  induction k with
  | zero => rfl
  | succ k ih =>
      show ((iterTurns s quantum (k + 1)).runTurn quantum).1 = _
      rw [ih]
      rfl

theorem runLoop_char (quantum : Int) :
    ∀ (fuel : Nat) (s : Scheduler),
      (s.runLoop quantum true fuel).2.2 ≤ fuel
      ∧ (s.runLoop quantum true fuel).1 = iterTurns s quantum (s.runLoop quantum true fuel).2.2
      ∧ (0 < fuel → 0 < (s.runLoop quantum true fuel).2.2)
      ∧ ((s.runLoop quantum true fuel).2.2 < fuel → stopCond (s.runLoop quantum true fuel).1 = true)
      ∧ (∀ j, 0 < j → j < (s.runLoop quantum true fuel).2.2 →
          stopCond (iterTurns s quantum j) = false) := by
  intro fuel
  induction fuel with
  | zero =>
      intro s
      refine ⟨le_refl 0, rfl, by omega, by omega, ?_⟩
      intro j hj hj2
      simp only [Scheduler.runLoop] at hj2
      omega
  | succ fuel ih =>
      intro s
      simp only [Scheduler.runLoop, Bool.true_and]
      by_cases hstop : (allEmpty (s.runTurn quantum).1 && noSkips (s.runTurn quantum).1) = true
      · rw [if_pos hstop]
        refine ⟨?_, rfl, fun _ => ?_, fun _ => hstop, ?_⟩
        · show 1 ≤ fuel + 1
          omega
        · show 0 < 1
          omega
        · intro j hj hj2
          have hj1 : j < 1 := hj2
          omega
      · rw [if_neg hstop]
        obtain ⟨ih1, ih2, ih3, ih4, ih5⟩ := ih ((s.runTurn quantum).1)
        refine ⟨?_, ?_, fun _ => ?_, ?_, ?_⟩
        · show ((s.runTurn quantum).1.runLoop quantum true fuel).2.2 + 1 ≤ fuel + 1
          omega
        · show ((s.runTurn quantum).1.runLoop quantum true fuel).1
            = iterTurns s quantum (((s.runTurn quantum).1.runLoop quantum true fuel).2.2 + 1)
          rw [iterTurns_shift]
          exact ih2
        · show 0 < ((s.runTurn quantum).1.runLoop quantum true fuel).2.2 + 1
          omega
        · intro hlt
          have hlt2 : ((s.runTurn quantum).1.runLoop quantum true fuel).2.2 + 1 < fuel + 1 := hlt
          show stopCond ((s.runTurn quantum).1.runLoop quantum true fuel).1 = true
          exact ih4 (by omega)
        · intro j hj hj2
          have hj2b : j < ((s.runTurn quantum).1.runLoop quantum true fuel).2.2 + 1 := hj2
          cases j with
          | zero => omega
          | succ j2 =>
              cases j2 with
              | zero =>
                  show stopCond ((s.runTurn quantum).1) = false
                  exact Bool.eq_false_iff.mpr hstop
              | succ j3 =>
                  rw [iterTurns_shift]
                  exact ih5 (j3 + 1) (by omega) (by omega)

/- ### The claims -/

/-- C1: every `enqueue(queue_id, item_name)` on a registered queue bumps
that queue's task-id counter by exactly one and forms the task id from the
new counter value in every outcome (unknown-item reject, full reject, or
acceptance); on an unregistered queue the counter map is unchanged and no
log line is returned. -/
theorem claim_C1 (s : Scheduler) (qid item : String) :
    (∀ q, lookupA s.queues qid = some q →
      (s.enqueue qid item).1.id_counter
          = setA s.id_counter qid ((lookupA s.id_counter qid).getD 0 + 1)
      ∧ ((s.enqueue qid item).2.1 = [rejectLine s.time qid (taskIdFor s qid) "unknown_item"]
         ∨ (s.enqueue qid item).2.1 = [rejectLine s.time qid (taskIdFor s qid) "full"]
         ∨ ∃ burst, lookupA s.menu item = some burst
             ∧ (s.enqueue qid item).2.1 = [enqueueLine s.time qid (taskIdFor s qid) burst]))
    ∧ (lookupA s.queues qid = none →
        (s.enqueue qid item).1.id_counter = s.id_counter
        ∧ (s.enqueue qid item).2.1 = []) := by
  constructor
  · intro q hq
    cases hm : lookupA s.menu item with
    | none =>
        rw [enqueue_unknown_item s qid item q hq hm]
        exact ⟨rfl, Or.inl rfl⟩
    | some burst =>
        by_cases hcap : (q.data.length : Int) ≥ q.capacity
        · rw [enqueue_full s qid item q burst hq hm hcap]
          exact ⟨rfl, Or.inr (Or.inl rfl)⟩
        · rw [enqueue_success s qid item q burst hq hm hcap]
          exact ⟨rfl, Or.inr (Or.inr ⟨burst, rfl, rfl⟩)⟩
  · intro hq
    rw [enqueue_unknown_queue s qid item hq]
    exact ⟨rfl, rfl⟩

/-- C1 witness: concrete registered and unregistered enqueue calls. -/
theorem claim_C1_witness :
    ((exC1.enqueue "c1" "tea").1.id_counter
        = setA exC1.id_counter "c1" ((lookupA exC1.id_counter "c1").getD 0 + 1))
    ∧ (exC1.enqueue "zz" "tea").1.id_counter = exC1.id_counter
    ∧ (exC1.enqueue "zz" "tea").2.1 = [] :=
  ⟨((claim_C1 exC1 "c1" "tea").1 ⟨"c1", 1, []⟩ (by decide)).1,
   ((claim_C1 exC1 "zz" "tea").2 (by decide)).1,
   ((claim_C1 exC1 "zz" "tea").2 (by decide)).2⟩

/-- C2: a dispatch turn on a queue with its skip flag clear and a head
task: the head is removed, `serviced = min(remaining, quantum)` is
subtracted from the task's remaining and added to global time; a still
positive remainder re-enters at the tail of the same queue with a `work`
event, otherwise the task is discarded and a `finish` event is emitted. -/
theorem claim_C2 (s : Scheduler) (quantum : Int) (q : QueueRR)
    (task : Task) (rest : List Task)
    (_hquant : 0 < quantum)
    (hskip : (lookupA s.skip_flags (s.queue_order.getD s.rr_index "")).getD false = false)
    (hq : lookupA s.queues (s.queue_order.getD s.rr_index "") = some q)
    (hd : q.data = task :: rest)
    (hinv : QInv q) :
    (s.runTurn quantum).1.time = s.time + min task.remaining quantum
    ∧ (0 < task.remaining - min task.remaining quantum →
        lookupA (s.runTurn quantum).1.queues (s.queue_order.getD s.rr_index "")
          = some { q with data :=
              rest ++ [⟨task.task_id, task.remaining - min task.remaining quantum⟩] }
        ∧ (s.runTurn quantum).2
          = runLine s.time (s.queue_order.getD s.rr_index "")
            :: workLine (s.time + min task.remaining quantum)
                 (s.queue_order.getD s.rr_index "") task.task_id
                 (task.remaining - min task.remaining quantum)
            :: (s.runTurn quantum).1.display)
    ∧ (¬ 0 < task.remaining - min task.remaining quantum →
        lookupA (s.runTurn quantum).1.queues (s.queue_order.getD s.rr_index "")
          = some { q with data := rest }
        ∧ (s.runTurn quantum).2
          = runLine s.time (s.queue_order.getD s.rr_index "")
            :: finishLine (s.time + min task.remaining quantum)
                 (s.queue_order.getD s.rr_index "") task.task_id
            :: (s.runTurn quantum).1.display) := by
  have hcap2 : ¬ ((rest.length : Int) ≥ q.capacity) := by
    rcases hinv with hle | hnil
    · rw [hd, List.length_cons] at hle
      push_cast at hle ⊢
      omega
    · rw [hnil] at hd
      cases hd
  by_cases hrem : 0 < task.remaining - min task.remaining quantum
  · have henq : QueueRR.enqueue { q with data := rest }
        ⟨task.task_id, task.remaining - min task.remaining quantum⟩
        = ({ q with data :=
              rest ++ [⟨task.task_id, task.remaining - min task.remaining quantum⟩] },
           true) := by
      unfold QueueRR.enqueue
      rw [if_neg hcap2]
    rw [runTurn_work s quantum q task rest hskip hq hd hrem, henq]
    refine ⟨rfl, fun _ => ⟨lookupA_setA_self _ _ _, rfl⟩, fun hc => absurd hrem hc⟩
  · rw [runTurn_finish s quantum q task rest hskip hq hd hrem]
    refine ⟨rfl, fun hc => absurd hc hrem, fun _ => ⟨lookupA_setA_self _ _ _, rfl⟩⟩

/-- C2 witness: quantum 1 against a latte (3 units) preempts it to 2 and
advances time by the serviced unit. -/
theorem claim_C2_witness :
    (exC2.runTurn 1).1.time = exC2.time + min (3:Int) 1
    ∧ lookupA (exC2.runTurn 1).1.queues (exC2.queue_order.getD exC2.rr_index "")
        = some ⟨"c1", 2, [⟨"c1-001", 3 - min (3:Int) 1⟩]⟩ := by
  have h := claim_C2 exC2 1 ⟨"c1", 2, [⟨"c1-001", 3⟩]⟩ ⟨"c1-001", 3⟩ []
      (by decide) (by decide) (by decide) (by decide) (Or.inl (by decide))
  exact ⟨h.1, (h.2.1 (by decide)).1⟩

/-- C3 counterexample: a rejected `enqueue` (unknown item) does change the
Scheduler's state — the task-id counter is consumed, so the state after the
call differs from the state before it. -/
theorem claim_C3_cex :
    (exC3.enqueue "c1" "pizza").2.1
        = [rejectLine exC3.time "c1" "c1-001" "unknown_item"]
    ∧ (exC3.enqueue "c1" "pizza").2.2 = ["Sorry, we don\x27t serve that."]
    ∧ (exC3.enqueue "c1" "pizza").1 ≠ exC3 := by
  refine ⟨?_, ?_, ?_⟩ <;> decide

/-- C3 (amended): a rejected `enqueue` on a registered queue — unknown item
or queue full — emits exactly the reject log line plus one advisory
message, and changes no Scheduler state other than incrementing that
queue's task-id counter. -/
theorem claim_C3 (s : Scheduler) (qid item : String) (q : QueueRR)
    (hreg : lookupA s.queues qid = some q)
    (hrej : (s.enqueue qid item).2.2 ≠ []) :
    ((s.enqueue qid item).2.1 = [rejectLine s.time qid (taskIdFor s qid) "unknown_item"]
       ∧ (s.enqueue qid item).2.2 = ["Sorry, we don\x27t serve that."]
     ∨ (s.enqueue qid item).2.1 = [rejectLine s.time qid (taskIdFor s qid) "full"]
       ∧ (s.enqueue qid item).2.2 = ["Sorry, we\x27re at capacity."])
    ∧ (s.enqueue qid item).1.time = s.time
    ∧ (s.enqueue qid item).1.queues = s.queues
    ∧ (s.enqueue qid item).1.queue_order = s.queue_order
    ∧ (s.enqueue qid item).1.skip_flags = s.skip_flags
    ∧ (s.enqueue qid item).1.rr_index = s.rr_index
    ∧ (s.enqueue qid item).1.id_counter
        = setA s.id_counter qid ((lookupA s.id_counter qid).getD 0 + 1) := by
  cases hm : lookupA s.menu item with
  | none =>
      rw [enqueue_unknown_item s qid item q hreg hm]
      exact ⟨Or.inl ⟨rfl, rfl⟩, rfl, rfl, rfl, rfl, rfl, rfl⟩
  | some burst =>
      by_cases hcap : (q.data.length : Int) ≥ q.capacity
      · rw [enqueue_full s qid item q burst hreg hm hcap]
        exact ⟨Or.inr ⟨rfl, rfl⟩, rfl, rfl, rfl, rfl, rfl, rfl⟩
      · exfalso
        rw [enqueue_success s qid item q burst hreg hm hcap] at hrej
        exact hrej rfl

/-- C3 witness: a concrete unknown-item rejection, with its frame
conditions extracted from the amended theorem. -/
theorem claim_C3_witness :
    (exC3.enqueue "c1" "pizza").2.2 ≠ []
    ∧ (exC3.enqueue "c1" "pizza").1.queues = exC3.queues
    ∧ (exC3.enqueue "c1" "pizza").1.id_counter
        = setA exC3.id_counter "c1" ((lookupA exC3.id_counter "c1").getD 0 + 1) :=
  ⟨by decide,
   (claim_C3 exC3 "c1" "pizza" ⟨"c1", 1, []⟩ (by decide) (by decide)).2.2.1,
   (claim_C3 exC3 "c1" "pizza" ⟨"c1", 1, []⟩ (by decide) (by decide)).2.2.2.2.2.2⟩

/-- C5: a turn visiting a queue with its skip flag set clears only the
flag: time, queue contents and counters are untouched even when a head
task is pending, yet the turn is consumed — the `run` event is logged, the
cursor advances once, and a snapshot is appended. -/
theorem claim_C5 (s : Scheduler) (quantum : Int)
    (_h0 : s.rr_index < s.queue_order.length)
    (h1 : (lookupA s.skip_flags (s.queue_order.getD s.rr_index "")).getD false = true) :
    (s.runTurn quantum).1.time = s.time
    ∧ (s.runTurn quantum).1.queues = s.queues
    ∧ (s.runTurn quantum).1.id_counter = s.id_counter
    ∧ (s.runTurn quantum).1.queue_order = s.queue_order
    ∧ (s.runTurn quantum).1.skip_flags
        = setA s.skip_flags (s.queue_order.getD s.rr_index "") false
    ∧ lookupA (s.runTurn quantum).1.skip_flags (s.queue_order.getD s.rr_index "")
        = some false
    ∧ (s.runTurn quantum).1.rr_index = (s.rr_index + 1) % s.queue_order.length
    ∧ (s.runTurn quantum).2
        = runLine s.time (s.queue_order.getD s.rr_index "")
          :: (s.runTurn quantum).1.display := by
  rw [runTurn_skip s quantum h1]
  exact ⟨rfl, rfl, rfl, rfl, rfl, lookupA_setA_self _ _ _, rfl, rfl⟩

/-- C5 witness: a skip turn on a queue with a pending task leaves time and
contents untouched while still consuming the turn. -/
theorem claim_C5_witness :
    exC5.rr_index < exC5.queue_order.length
    ∧ (exC5.runTurn 1).1.time = exC5.time
    ∧ (exC5.runTurn 1).1.queues = exC5.queues
    ∧ (exC5.runTurn 1).2
        = runLine exC5.time (exC5.queue_order.getD exC5.rr_index "")
          :: (exC5.runTurn 1).1.display :=
  ⟨by decide,
   (claim_C5 exC5 1 (by decide) (by decide)).1,
   (claim_C5 exC5 1 (by decide) (by decide)).2.1,
   (claim_C5 exC5 1 (by decide) (by decide)).2.2.2.2.2.2.2⟩

/-- C4 counterexample: `create_queue("c1", -1)` yields a reachable state
whose queue holds 0 tasks yet has capacity −1, so the literal claim that
the task count never exceeds the capacity fails. -/
theorem claim_C4_cex :
    ¬ (∀ s : Scheduler, Reachable s →
        ∀ qid q, lookupA s.queues qid = some q → (q.data.length : Int) ≤ q.capacity) := by
  intro h
  have hr : Reachable (Scheduler.init.create_queue "c1" (-1)).1 :=
    Reachable.create_step Scheduler.init "c1" (-1) Reachable.init
  have hx := h _ hr "c1" ⟨"c1", -1, []⟩ (by decide)
  exact absurd hx (by decide)

/-- C4 (amended): at every reachable state each registered queue holds at
most `capacity` tasks or is empty (the empty disjunct covers queues created
with a negative capacity, which stay empty forever); the first enqueue of a
known item on a queue already holding capacity-many tasks is rejected
`full` and the queue registry, contents included, is unchanged. -/
theorem claim_C4 (s : Scheduler) (hr : Reachable s) :
    (∀ qid q, lookupA s.queues qid = some q →
        (q.data.length : Int) ≤ q.capacity ∨ q.data = [])
    ∧ (∀ qid item q burst, lookupA s.queues qid = some q →
        (q.data.length : Int) = q.capacity →
        lookupA s.menu item = some burst →
        (s.enqueue qid item).2.1
            = [rejectLine s.time qid (taskIdFor s qid) "full"]
        ∧ (s.enqueue qid item).1.queues = s.queues) := by
  constructor
  · exact reachable_SchedInv s hr
  · intro qid item q burst hq hfull hm
    have hge : (q.data.length : Int) ≥ q.capacity := le_of_eq hfull.symm
    rw [enqueue_full s qid item q burst hq hm hge]
    exact ⟨rfl, rfl⟩

/-- C4 witness: a reachable scheduler whose queue `c1` is at capacity
rejects the next known item with `full` and keeps its contents. -/
theorem claim_C4_witness :
    Reachable exC4
    ∧ (((⟨"c1", 1, [⟨"c1-001", 1⟩]⟩ : QueueRR).data.length : Int)
          ≤ (⟨"c1", 1, [⟨"c1-001", 1⟩]⟩ : QueueRR).capacity
        ∨ (⟨"c1", 1, [⟨"c1-001", 1⟩]⟩ : QueueRR).data = [])
    ∧ (exC4.enqueue "c1" "tea").2.1
        = [rejectLine exC4.time "c1" (taskIdFor exC4 "c1") "full"]
    ∧ (exC4.enqueue "c1" "tea").1.queues = exC4.queues := by
  have hr : Reachable exC4 :=
    Reachable.enqueue_step (Scheduler.init.create_queue "c1" 1).1 "c1" "tea"
      (Reachable.create_step Scheduler.init "c1" 1 Reachable.init)
  have h := claim_C4 exC4 hr
  exact ⟨hr,
    h.1 "c1" ⟨"c1", 1, [⟨"c1-001", 1⟩]⟩ (by decide),
    (h.2 "c1" "tea" ⟨"c1", 1, [⟨"c1-001", 1⟩]⟩ 1 (by decide) (by decide) (by decide)).1,
    (h.2 "c1" "tea" ⟨"c1", 1, [⟨"c1-001", 1⟩]⟩ 1 (by decide) (by decide) (by decide)).2⟩

/-- C6: with at least one registered queue, `run(quantum, steps)` with
`steps` outside `[1, n]` returns the pair of the unchanged state — every
field — and exactly one `error/invalid_steps` log line. -/
theorem claim_C6 (s : Scheduler) (quantum st : Int)
    (h1 : s.queue_order ≠ [])
    (h2 : st < 1 ∨ st > (s.queue_order.length : Int)) :
    s.run quantum (some st) = (s, [errorLine s.time]) := by
  have hn : ¬ s.queue_order.length = 0 := by simpa using h1
  have hcond : (decide (st < 1) || decide (st > (s.queue_order.length : Int))) = true := by
    rcases h2 with h | h <;> simp [h]
  simp only [Scheduler.run]
  rw [if_neg hn, if_pos hcond]

/-- C6 witness: `steps = 5` against a single queue. -/
theorem claim_C6_witness :
    exC6.queue_order ≠ []
    ∧ ((5:Int) < 1 ∨ (5:Int) > (exC6.queue_order.length : Int))
    ∧ exC6.run 1 (some 5) = (exC6, [errorLine exC6.time]) :=
  ⟨by decide, Or.inr (by decide),
   claim_C6 exC6 1 5 (by decide) (Or.inr (by decide))⟩

/-- C7: with at least one queue and a positive quantum, unbounded `run`
executes at most `n × 100` turns; whenever it stops strictly below that
ceiling, every queue is empty and no skip flag is pending right after its
final turn; and it never continues past a turn after which that stop
condition already held. -/
theorem claim_C7 (s : Scheduler) (quantum : Int)
    (h1 : s.queue_order ≠ [])
    (_h2 : 0 < quantum) :
    (s.run quantum none).1 = (s.runLoop quantum true (s.queue_order.length * 100)).1
    ∧ (s.run quantum none).2 = (s.runLoop quantum true (s.queue_order.length * 100)).2.1
    ∧ (s.runLoop quantum true (s.queue_order.length * 100)).2.2
        ≤ s.queue_order.length * 100
    ∧ (s.runLoop quantum true (s.queue_order.length * 100)).1
        = iterTurns s quantum (s.runLoop quantum true (s.queue_order.length * 100)).2.2
    ∧ ((s.runLoop quantum true (s.queue_order.length * 100)).2.2
          < s.queue_order.length * 100 →
        stopCond (s.runLoop quantum true (s.queue_order.length * 100)).1 = true)
    ∧ (∀ j, 0 < j → j < (s.runLoop quantum true (s.queue_order.length * 100)).2.2 →
        stopCond (iterTurns s quantum j) = false) := by
  have hn : ¬ s.queue_order.length = 0 := by simpa using h1
  obtain ⟨c1, c2, c3, c4, c5⟩ := runLoop_char quantum (s.queue_order.length * 100) s
  refine ⟨?_, ?_, c1, c2, c4, c5⟩
  · simp only [Scheduler.run]
    rw [if_neg hn]
  · simp only [Scheduler.run]
    rw [if_neg hn]

/-- C7 witness: a single empty queue — the unbounded run stops after its
first turn, far below the `1 × 100` ceiling. -/
theorem claim_C7_witness :
    exC7.queue_order ≠ []
    ∧ (0:Int) < 1
    ∧ (exC7.run 1 none).1 = (exC7.runLoop 1 true (exC7.queue_order.length * 100)).1
    ∧ (exC7.runLoop 1 true (exC7.queue_order.length * 100)).2.2
        ≤ exC7.queue_order.length * 100
    ∧ (exC7.runLoop 1 true (exC7.queue_order.length * 100)).1
        = iterTurns exC7 1 (exC7.runLoop 1 true (exC7.queue_order.length * 100)).2.2 :=
  ⟨by decide, by decide,
   (claim_C7 exC7 1 (by decide) (by decide)).1,
   (claim_C7 exC7 1 (by decide) (by decide)).2.2.1,
   (claim_C7 exC7 1 (by decide) (by decide)).2.2.2.1⟩

/-- C8: in a work turn that preempts (remaining still positive after the
service), the re-insertion at the tail cannot hit the capacity check: the
head was just dequeued, so the queue sits strictly below capacity, the
`QueueRR.enqueue` succeeds, and the task lands at the tail rather than
being silently dropped despite the ignored return flag. -/
theorem claim_C8 (s : Scheduler) (quantum : Int) (q : QueueRR)
    (task : Task) (rest : List Task)
    (hskip : (lookupA s.skip_flags (s.queue_order.getD s.rr_index "")).getD false = false)
    (hq : lookupA s.queues (s.queue_order.getD s.rr_index "") = some q)
    (hd : q.data = task :: rest)
    (hinv : QInv q)
    (hrem : 0 < task.remaining - min task.remaining quantum) :
    ((rest.length : Int) < q.capacity)
    ∧ (QueueRR.enqueue { q with data := rest }
         ⟨task.task_id, task.remaining - min task.remaining quantum⟩).2 = true
    ∧ lookupA (s.runTurn quantum).1.queues (s.queue_order.getD s.rr_index "")
        = some { q with data :=
            rest ++ [⟨task.task_id, task.remaining - min task.remaining quantum⟩] } := by
  have hcap2 : ¬ ((rest.length : Int) ≥ q.capacity) := by
    rcases hinv with hle | hnil
    · rw [hd, List.length_cons] at hle
      push_cast at hle ⊢
      omega
    · rw [hnil] at hd
      cases hd
  have henq : QueueRR.enqueue { q with data := rest }
      ⟨task.task_id, task.remaining - min task.remaining quantum⟩
      = ({ q with data :=
            rest ++ [⟨task.task_id, task.remaining - min task.remaining quantum⟩] },
         true) := by
    unfold QueueRR.enqueue
    rw [if_neg hcap2]
  refine ⟨by omega, ?_, ?_⟩
  · rw [henq]
  · rw [runTurn_work s quantum q task rest hskip hq hd hrem, henq]
    exact lookupA_setA_self _ _ _

/-- C8 witness: a full one-slot queue whose only task is preempted — the
tail re-insertion still succeeds because the head was dequeued first. -/
theorem claim_C8_witness :
    (([] : List Task).length : Int) < (⟨"c1", 1, [⟨"c1-001", 3⟩]⟩ : QueueRR).capacity
    ∧ (QueueRR.enqueue ⟨"c1", 1, []⟩ ⟨"c1-001", 3 - min (3:Int) 1⟩).2 = true := by
  have h := claim_C8 exC8 1 ⟨"c1", 1, [⟨"c1-001", 3⟩]⟩ ⟨"c1-001", 3⟩ []
      (by decide) (by decide) (by decide) (Or.inl (by decide)) (by decide)
  exact ⟨h.1, h.2.1⟩

/-- C9: `create_queue` validates nothing — any capacity, 0 or negative
included, registers the queue and logs a `create` event; and on a queue
whose capacity is ≤ 0 every enqueue of a known item is rejected with
reason `full` while still consuming a task-id counter slot. -/
theorem claim_C9 :
    (∀ (s : Scheduler) (qid : String) (cap : Int),
      lookupA s.queues qid = none →
      (s.create_queue qid cap).2 = [createLine s.time qid]
      ∧ lookupA (s.create_queue qid cap).1.queues qid = some ⟨qid, cap, []⟩)
    ∧ (∀ (s : Scheduler) (qid item : String) (q : QueueRR) (burst : Int),
        lookupA s.queues qid = some q → q.capacity ≤ 0 →
        lookupA s.menu item = some burst →
        (s.enqueue qid item).2.1 = [rejectLine s.time qid (taskIdFor s qid) "full"]
        ∧ (s.enqueue qid item).1.id_counter
            = setA s.id_counter qid ((lookupA s.id_counter qid).getD 0 + 1)) := by
  constructor
  · intro s qid cap h
    rw [create_queue_new s qid cap h]
    exact ⟨rfl, lookupA_setA_self _ _ _⟩
  · intro s qid item q burst hq hcap hm
    have hge : (q.data.length : Int) ≥ q.capacity := by
      have hlen : (0 : Int) ≤ (q.data.length : Int) := Int.natCast_nonneg _
      omega
    rw [enqueue_full s qid item q burst hq hm hge]
    exact ⟨rfl, rfl⟩

/-- C9 witness: creating `c1` with capacity −2 emits a `create` event, and
a zero-capacity queue rejects `tea` with `full` while bumping its
counter. -/
theorem claim_C9_witness :
    ((Scheduler.init.create_queue "c1" (-2)).2 = [createLine Scheduler.init.time "c1"]
      ∧ lookupA (Scheduler.init.create_queue "c1" (-2)).1.queues "c1"
          = some ⟨"c1", -2, []⟩)
    ∧ ((exC9.enqueue "c1" "tea").2.1
          = [rejectLine exC9.time "c1" (taskIdFor exC9 "c1") "full"]
       ∧ (exC9.enqueue "c1" "tea").1.id_counter
           = setA exC9.id_counter "c1" ((lookupA exC9.id_counter "c1").getD 0 + 1)) :=
  ⟨claim_C9.1 Scheduler.init "c1" (-2) (by decide),
   claim_C9.2 exC9 "c1" "tea" ⟨"c1", 0, []⟩ 1 (by decide) (by decide) (by decide)⟩

/-- C10: every `mark_skip` on a registered queue emits a `skip` log line at
the current time and leaves the flag set; `n` consecutive calls on the same
queue produce `n` identical `skip` lines even though the flag state after
each call is the same. -/
theorem claim_C10 (s : Scheduler) (qid : String) (n : Nat)
    (h : (lookupA s.skip_flags qid).isSome = true) :
    (s.mark_skip qid).2 = [skipLine s.time qid]
    ∧ lookupA (s.mark_skip qid).1.skip_flags qid = some true
    ∧ (markSkipN s qid n).2 = List.replicate n (skipLine s.time qid) := by
  refine ⟨?_, ?_, markSkipN_replicate qid n s h⟩
  · rw [mark_skip_known s qid h]
  · rw [mark_skip_known s qid h]
    exact lookupA_setA_self _ _ _

/-- C10 witness: three consecutive `mark_skip("c1")` calls log three
identical `skip` lines. -/
theorem claim_C10_witness :
    (lookupA exC10.skip_flags "c1").isSome = true
    ∧ (markSkipN exC10 "c1" 3).2 = List.replicate 3 (skipLine exC10.time "c1") :=
  ⟨by decide, (claim_C10 exC10 "c1" 3 (by decide)).2.2⟩

end RRScheduler
